import Mathlib

/-!
Verification of the CivForge deterministic chunked terrain generator
(`apps/worker/src/chunkgen.ts`, `chunkgen-overlay.ts`, `chunkgen-api.ts`,
`chunk-serializer`, `types.ts`) against its natural-language specification.

The TypeScript is shallowly embedded:

* JS `number` arithmetic is modelled by `ℚ` (the code's float rounding plays
  no role in any property settled here);
* the two transcendental primitives the generator uses — the
  `Math.sin`-based lattice hash `randomFromCoords` and `Math.sqrt` — are
  abstracted as the parameter structure `JsPrims`; every theorem below is
  uniform in this parameter;
* possibly non-terminating call graphs are embedded with an explicit fuel
  argument: a result of `none` means the computation did not produce a value
  within the given fuel.  A function whose fueled embedding returns `none`
  for *every* fuel never returns a value at any recursion depth;
* the mutable `Map`s (chunk cache, overlay store) are embedded as
  association lists in insertion order, with JS `Map` get/set/delete
  semantics (`jsMapGet`/`jsMapSet`/`jsMapDelete`).
-/

set_option linter.unusedVariables false

/-- The closed 9-value biome enum from `types.ts`. -/
inductive Biome where
  | ocean | coast | plains | forest | desert | tundra | snow | mountain | river
deriving DecidableEq, Repr

/-- `FieldValues` from `chunkgen.ts`: the four continuous terrain scalars. -/
structure FieldValues where
  elevation : ℚ
  temperature : ℚ
  moisture : ℚ
  ruggedness : ℚ
deriving DecidableEq, Repr

/-- `CHUNK_SIZE = 128` from `chunkgen.ts`. -/
def CHUNK_SIZE : ℤ := 128

/-- `SEA_LEVEL = 0.32` from `chunkgen.ts`. -/
def SEA_LEVEL : ℚ := 0.32

/-- `COAST_THRESHOLD = 0.36` from `chunkgen.ts`. -/
def COAST_THRESHOLD : ℚ := 0.36

/-- The two numeric primitives of the generator that have no exact rational
embedding, abstracted as parameters.  `rfc x y` stands for
`NoiseGenerator.randomFromCoords(x, y)` (the fractional part of
`sin(x*127.1 + y*311.7) * 43758.5453123`, a pure function of the integer
lattice point), and `sqrt` stands for `Math.sqrt`.  Every theorem in this
file holds for every choice of these primitives. -/
structure JsPrims where
  rfc : ℤ → ℤ → ℚ
  sqrt : ℚ → ℚ

/-- `NoiseGenerator.fade`: `t * t * (3 - 2 * t)`. -/
def fade (t : ℚ) : ℚ := t * t * (3 - 2 * t)

/-- `NoiseGenerator.lerp`: `a + (b - a) * t`. -/
def lerp (a b t : ℚ) : ℚ := a + (b - a) * t

/-- `NoiseGenerator.smoothNoise`: bilinear value-noise interpolation of the
four lattice corners around `(x, y)`. -/
def smoothNoise (rfc : ℤ → ℤ → ℚ) (x y : ℚ) : ℚ :=
  let xi : ℤ := ⌊x⌋
  let yi : ℤ := ⌊y⌋
  let xf : ℚ := x - xi
  let yf : ℚ := y - yi
  let n00 := rfc xi yi
  let n10 := rfc (xi + 1) yi
  let n01 := rfc xi (yi + 1)
  let n11 := rfc (xi + 1) (yi + 1)
  let u := fade xf
  let v := fade yf
  let x1 := lerp n00 n10 u
  let x2 := lerp n01 n11 u
  lerp x1 x2 v

/-- One octave step of `NoiseGenerator.sample`'s fractal loop.  The
accumulator carries `(value, amplitude, freq, max)` exactly as the source's
loop variables do. -/
def octaveStep (rfc : ℤ → ℤ → ℚ) (x y : ℚ) :
    ℕ → (ℚ × ℚ × ℚ × ℚ) → (ℚ × ℚ × ℚ × ℚ)
  | 0, acc => acc
  | n + 1, (value, amplitude, freq, mx) =>
      octaveStep rfc x y n
        (value + smoothNoise rfc (x * freq) (y * freq) * amplitude,
         amplitude * 0.5, freq * 2, mx + amplitude)

/-- `NoiseGenerator.sample(x, y, octaves, frequency)`: fractal value noise.
The `rng` field built by `mulberry32` in the source is never consulted by
`sample`, so the embedding takes only the lattice primitive. -/
def noiseSample (rfc : ℤ → ℤ → ℚ) (x y : ℚ) (octaves : ℕ) (frequency : ℚ) : ℚ :=
  let acc := octaveStep rfc x y octaves (0, 1, frequency, 0)
  acc.1 / acc.2.2.2

/-- The search offsets of `getCoastDistance`: `dy` (outer) and `dx` (inner)
each range over `-10, -8, …, 10`; the element is `(dx, dy)`. -/
def coastSearchOffsets : List (ℚ × ℚ) :=
  ([-10, -8, -6, -4, -2, 0, 2, 4, 6, 8, 10] : List ℚ).flatMap fun dy =>
    ([-10, -8, -6, -4, -2, 0, 2, 4, 6, 8, 10] : List ℚ).map fun dx => (dx, dy)

/-- `ChunkWorldGenerator.getCoastDistance(x, y)`, parameterized by the
recursive reference `sf` to `sampleFields` (the source calls
`this.sampleFields(x + dx, y + dy)` in the loop body).  Returns `none` as
soon as a nested `sampleFields` call fails to produce a value. -/
def getCoastDistanceAux (prims : JsPrims) (sf : ℚ → ℚ → Option FieldValues)
    (x y : ℚ) : Option ℚ :=
  (coastSearchOffsets.foldlM (fun (minDist : ℚ) d =>
      (sf (x + d.1) (y + d.2)).bind fun fields =>
        some (if fields.elevation < COAST_THRESHOLD
              then min minDist (prims.sqrt (d.1 * d.1 + d.2 * d.2))
              else minDist))
    10).map fun minDist => minDist / 10

/-- `ChunkWorldGenerator.getRainShadow(x, y, elevation)`, parameterized by
the recursive reference `sf` to `sampleFields`. -/
def getRainShadowAux (sf : ℚ → ℚ → Option FieldValues)
    (x y elevation : ℚ) : Option ℚ :=
  if elevation < 0.5 then some 1.0
  else
    (sf (x - 10) y).bind fun westFields =>
    (sf (x + 10) y).bind fun eastFields =>
    some (if westFields.elevation > elevation + 0.1 ∧ eastFields.elevation < elevation
          then 0.3
          else if westFields.elevation < elevation ∧ eastFields.elevation > elevation + 0.1
          then 1.2
          else 1.0)

/-- `ChunkWorldGenerator.sampleFields(x, y)` with explicit fuel.  The source
(lines 176–239) computes elevation and temperature from noise, then calls
`this.getCoastDistance(x, y)` — which itself calls `this.sampleFields` at
121 nearby offsets — and, at elevation above 0.6, `this.getRainShadow`, which
samples two more points.  Each nested `sampleFields` call runs at one less
fuel; fuel 0 yields `none` (no value produced at that recursion depth). -/
def sampleFieldsF (prims : JsPrims) : ℕ → ℚ → ℚ → Option FieldValues
  | 0, _, _ => none
  | fuel + 1, x, y =>
    let nx := x / 128
    let ny := y / 128
    let distFromCenter := prims.sqrt ((nx - 0.5) * (nx - 0.5) + (ny - 0.5) * (ny - 0.5))
    let landmassShape := 1 - distFromCenter * 1.8
    let landmassNoise := noiseSample prims.rfc (x * 0.008) (y * 0.008) 4 1.2
    let continentBase := max 0 (landmassShape * 0.7 + landmassNoise * 0.3)
    let islandNoise := noiseSample prims.rfc (x * 0.015) (y * 0.015) 3 0.8
    let islandContribution := if islandNoise > 0.3 then (islandNoise - 0.3) * 0.4 else 0
    let terrainNoise := noiseSample prims.rfc (x * 0.04) (y * 0.04) 5 0.6
    let detailNoise := noiseSample prims.rfc (x * 0.15) (y * 0.15) 2 0.2
    let elevation := max 0 (min 1 (continentBase * 0.5 + islandContribution * 0.3 +
      terrainNoise * 0.15 + detailNoise * 0.05))
    let tempBase := 1 - |ny - 0.5| * 1.8
    let tempElevation := (1 - elevation) * 0.4
    let tempNoise := noiseSample prims.rfc (x * 0.02) (y * 0.02) 2 0.3
    let temperature := max 0 (min 1 (tempBase * 0.6 + tempElevation + tempNoise * 0.15))
    (getCoastDistanceAux prims (sampleFieldsF prims fuel) x y).bind fun coastDist =>
      let moistureBase := max 0 (1 - coastDist * 1.5)
      ((if elevation > 0.6
        then getRainShadowAux (sampleFieldsF prims fuel) x y elevation
        else some 1.0)).bind fun mountainInfluence =>
        let moistureNoise := noiseSample prims.rfc (x * 0.03) (y * 0.03) 3 0.5
        let moisture := max 0 (min 1 (moistureBase * 0.5 + mountainInfluence * 0.3 +
          moistureNoise * 0.2))
        let ruggednessBase := if elevation > 0.5
          then noiseSample prims.rfc (x * 0.12) (y * 0.12) 4 1.5 else 0.2
        let ruggedness := max 0 (min 1 (ruggednessBase * elevation))
        some { elevation := max 0 (min 1 elevation),
               temperature := max 0 (min 1 temperature),
               moisture := max 0 (min 1 moisture),
               ruggedness := max 0 (min 1 ruggedness) }

/-- A monadic left fold whose every step refuses to produce a value produces
no value on a non-empty list. -/
theorem foldlM_none_of_step_none {α β : Type} (step : β → α → Option β)
    (h : ∀ s a, step s a = none) :
    ∀ (l : List α) (s : β), l ≠ [] → l.foldlM step s = none := by
  intro l s hl
  cases l with
  | nil => exact absurd rfl hl
  | cons a t => simp [List.foldlM_cons, h]

/-- If every nested `sampleFields` call produces no value, neither does
`getCoastDistance`. -/
theorem getCoastDistanceAux_none (prims : JsPrims)
    (sf : ℚ → ℚ → Option FieldValues) (hsf : ∀ a b, sf a b = none) (x y : ℚ) :
    getCoastDistanceAux prims sf x y = none := by
  unfold getCoastDistanceAux
  rw [foldlM_none_of_step_none _ (fun s d => by rw [hsf]; rfl)
    coastSearchOffsets 10 (by decide)]
  rfl

/-- Central divergence lemma: `sampleFields` produces no value at any fuel,
for any coordinates and any choice of the numeric primitives.  The source's
`sampleFields` unconditionally calls `getCoastDistance`, whose search loop
calls `sampleFields` back at 121 offsets with no base case or memoization. -/
theorem sampleFieldsF_eq_none (prims : JsPrims) :
    ∀ (fuel : ℕ) (x y : ℚ), sampleFieldsF prims fuel x y = none := by
  intro fuel
  induction fuel with
  | zero => intro x y; rfl
  | succ n ih =>
    intro x y
    have hc := getCoastDistanceAux_none prims (sampleFieldsF prims n)
      (fun a b => ih a b) x y
    simp only [sampleFieldsF, hc, Option.none_bind]

/-- `ChunkWorldGenerator.classifyBiome(fields)` (chunkgen.ts lines 311–371),
translated branch for branch, including the redundant marshy-coast inner
test, the alpine-tundra branch, and the forest block whose unmatched inputs
fall through to `plains`. -/
def classifyBiome (f : FieldValues) : Biome :=
  if f.elevation < SEA_LEVEL then .ocean
  else if f.elevation < COAST_THRESHOLD then
    (if f.moisture > 0.7 ∧ f.elevation < SEA_LEVEL + 0.02 then Biome.coast else Biome.coast)
  else if f.elevation > 0.7 ∧ f.ruggedness > 0.5 then
    (if f.temperature < 0.35 ∨ f.elevation > 0.85 then Biome.snow else Biome.mountain)
  else if f.temperature < 0.3 then
    (if f.moisture > 0.4 then Biome.tundra else Biome.snow)
  else if f.elevation > 0.65 ∧ f.temperature < 0.5 then .tundra
  else if f.moisture < 0.25 ∧ f.elevation < 0.7 then .desert
  else if f.moisture > 0.55 ∧ f.temperature > 0.35 ∧ f.elevation < 0.7 then
    (if f.moisture > 0.7 then Biome.forest
     else if f.moisture > 0.6 then Biome.forest
     else Biome.plains)
  else .plains

/-- Per-cell resource channels (`CellData.resources`). -/
structure Resources where
  food : ℚ
  wood : ℚ
  stone : ℚ
  iron : ℚ
deriving DecidableEq, Repr

/-- `ChunkWorldGenerator.getResourcePotential(biome, fields)`: static lookup
table keyed by biome (the `fields` argument is unused in the source too). -/
def getResourcePotential (biome : Biome) (fields : FieldValues) : Resources :=
  match biome with
  | .forest => { food := 0.4, wood := 0.8, stone := 0, iron := 0 }
  | .plains => { food := 0.9, wood := 0.2, stone := 0, iron := 0 }
  | .mountain => { food := 0, wood := 0, stone := 0.9, iron := 0.5 }
  | .desert => { food := 0.1, wood := 0, stone := 0.5, iron := 0 }
  | .coast => { food := 0.6, wood := 0, stone := 0, iron := 0 }
  | .ocean => { food := 0.3, wood := 0, stone := 0, iron := 0 }
  | .tundra => { food := 0.3, wood := 0, stone := 0, iron := 0 }
  | .snow => { food := 0, wood := 0, stone := 0.3, iron := 0 }
  | _ => { food := 0, wood := 0, stone := 0, iron := 0 }

/-- `ChunkWorldGenerator.getMovementCost(biome, fields)`. -/
def getMovementCost (biome : Biome) (fields : FieldValues) : ℚ :=
  match biome with
  | .ocean => 3
  | .mountain => 2.5
  | .forest => 1.5
  | .snow => 2
  | .desert => 1.3
  | _ => 1

/-- `CellData` from `chunkgen.ts`. -/
structure CellData where
  biome : Biome
  movementCost : ℚ
  resources : Resources
  hasRiver : Bool
  hasLake : Bool
deriving DecidableEq, Repr

/-- The eight neighbours considered by the backward (uphill) river trace, in
source order (4-neighbours first, then diagonals). -/
def riverNeighbors8 (cx cy : ℚ) : List (ℚ × ℚ) :=
  [(cx - 1, cy), (cx + 1, cy), (cx, cy - 1), (cx, cy + 1),
   (cx - 1, cy - 1), (cx + 1, cy - 1), (cx - 1, cy + 1), (cx + 1, cy + 1)]

/-- The four neighbours used by the forward flow trace and the lake check,
in source order. -/
def riverNeighbors4 (cx cy : ℚ) : List (ℚ × ℚ) :=
  [(cx - 1, cy), (cx + 1, cy), (cx, cy - 1), (cx, cy + 1)]

/-- `checkNearbyMoisture(x, y)`: average moisture over the 5×5 window. -/
def checkNearbyMoistureAux (sf : ℚ → ℚ → Option FieldValues) (x y : ℚ) : Option ℚ :=
  ((([-2, -1, 0, 1, 2] : List ℚ).flatMap fun dy =>
      ([-2, -1, 0, 1, 2] : List ℚ).map fun dx => (dx, dy)).foldlM
    (fun (acc : ℚ × ℚ) d =>
      (sf (x + d.1) (y + d.2)).bind fun fields =>
        some (acc.1 + fields.moisture, acc.2 + 1))
    (0, 0)).map fun acc => acc.1 / acc.2

/-- The uphill-neighbour selection of `isOnRiverPath`: fold over the eight
neighbours carrying `(next, highestElevation)`, keeping a neighbour that is
strictly higher than the best so far but below `current.elevation + 0.2`. -/
def pickUphillNeighbor (sf : ℚ → ℚ → Option FieldValues)
    (currentElevation : ℚ) (cx cy : ℚ) : Option (Option (ℚ × ℚ) × ℚ) :=
  (riverNeighbors8 cx cy).foldlM
    (fun (acc : Option (ℚ × ℚ) × ℚ) n =>
      (sf n.1 n.2).bind fun nFields =>
        some (if nFields.elevation > acc.2 ∧ nFields.elevation < currentElevation + 0.2
              then (some n, nFields.elevation)
              else acc))
    (none, currentElevation)

/-- The backward (uphill) trace loop of `isOnRiverPath` (chunkgen.ts lines
457–522).  The step budget starts at `MAX_TRACE_STEPS = 300`; the result is
the loop's `foundSource` flag.  `none` means a nested `sampleFields` call
produced no value. -/
def traceBackLoop (prims : JsPrims) (sf : ℚ → ℚ → Option FieldValues) :
    ℕ → List (ℚ × ℚ) → ℚ → ℚ → Option Bool
  | 0, _, _, _ => some false
  | steps + 1, visited, cx, cy =>
    if (cx, cy) ∈ visited then some false
    else
      (sf cx cy).bind fun currentFields =>
        if currentFields.elevation > 0.6 ∧ currentFields.moisture > 0.55 ∧
            noiseSample prims.rfc (cx * 0.08) (cy * 0.08) 1 0.6 > 0.75
        then some true
        else if currentFields.elevation < SEA_LEVEL + 0.05 then some false
        else
          (pickUphillNeighbor sf currentFields.elevation cx cy).bind fun sel =>
            match sel.1 with
            | none =>
              if currentFields.moisture > 0.6 ∧ currentFields.elevation > SEA_LEVEL + 0.1
              then (checkNearbyMoistureAux sf cx cy).bind fun nearbyMoisture =>
                     some (decide (nearbyMoisture > 0.65))
              else some false
            | some nxt => traceBackLoop prims sf steps ((cx, cy) :: visited) nxt.1 nxt.2

/-- The downhill-neighbour selection of `verifyRiverFlow`. -/
def pickDownhillNeighbor (sf : ℚ → ℚ → Option FieldValues)
    (currentElevation : ℚ) (cx cy : ℚ) : Option (Option (ℚ × ℚ) × ℚ) :=
  (riverNeighbors4 cx cy).foldlM
    (fun (acc : Option (ℚ × ℚ) × ℚ) n =>
      (sf n.1 n.2).bind fun nFields =>
        some (if nFields.elevation < acc.2 then (some n, nFields.elevation) else acc))
    (none, currentElevation)

/-- The forward (downhill) trace loop of `verifyRiverFlow` (chunkgen.ts
lines 552–606); step budget `MAX_FLOW_STEPS = 150`.  Returns `true` when the
walk reaches elevation below `SEA_LEVEL + 0.1`, or dead-ends in a wet local
minimum. -/
def verifyRiverFlowLoop (sf : ℚ → ℚ → Option FieldValues) :
    ℕ → List (ℚ × ℚ) → ℚ → ℚ → Option Bool
  | 0, _, _, _ => some false
  | steps + 1, visited, cx, cy =>
    if (cx, cy) ∈ visited then some false
    else
      (sf cx cy).bind fun currentFields =>
        if currentFields.elevation < SEA_LEVEL + 0.1 then some true
        else
          (pickDownhillNeighbor sf currentFields.elevation cx cy).bind fun sel =>
            match sel.1 with
            | none => some (decide (currentFields.moisture > 0.7))
            | some nxt => verifyRiverFlowLoop sf steps ((cx, cy) :: visited) nxt.1 nxt.2

/-- `ChunkWorldGenerator.verifyRiverFlow(x, y, fields)`. -/
def verifyRiverFlowAux (sf : ℚ → ℚ → Option FieldValues)
    (x y : ℚ) (fields : FieldValues) : Option Bool :=
  verifyRiverFlowLoop sf 150 [] x y

/-- `ChunkWorldGenerator.isOnRiverPath(x, y, fields)` (chunkgen.ts lines
448–531): backward trace for a source, then, only if one was found, the
forward flow verification. -/
def isOnRiverPathAux (prims : JsPrims) (sf : ℚ → ℚ → Option FieldValues)
    (x y : ℚ) (fields : FieldValues) : Option Bool :=
  (traceBackLoop prims sf 300 [] x y).bind fun foundSource =>
    if foundSource then verifyRiverFlowAux sf x y fields else some false

/-- `ChunkWorldGenerator.checkRiver(x, y, fields)` (chunkgen.ts lines
430–441).  Source cells (`elevation > 0.65`, `moisture > 0.6`) are decided
by a single seed draw without any trace; all other points go through
`isOnRiverPath`. -/
def checkRiverF (prims : JsPrims) (fuel : ℕ) (x y : ℚ) (fields : FieldValues) :
    Option Bool :=
  if fields.elevation > 0.65 ∧ fields.moisture > 0.6 then
    some (decide (noiseSample prims.rfc (x * 0.1) (y * 0.1) 1 0.5 > 0.85))
  else isOnRiverPathAux prims (sampleFieldsF prims fuel) x y fields

/-- The early-exit neighbour scan of `checkLake`: `false` as soon as a
neighbour is below `fields.elevation + 0.05`. -/
def allNeighborsHigher (sf : ℚ → ℚ → Option FieldValues) (fields : FieldValues) :
    List (ℚ × ℚ) → Option Bool
  | [] => some true
  | n :: rest =>
    (sf n.1 n.2).bind fun nFields =>
      if nFields.elevation < fields.elevation + 0.05 then some false
      else allNeighborsHigher sf fields rest

/-- `ChunkWorldGenerator.checkLake(x, y, fields)` (chunkgen.ts lines
612–639). -/
def checkLakeF (prims : JsPrims) (fuel : ℕ) (x y : ℚ) (fields : FieldValues) :
    Option Bool :=
  if fields.elevation < 0.5 ∧ fields.moisture > 0.65 then
    (allNeighborsHigher (sampleFieldsF prims fuel) fields (riverNeighbors4 x y)).bind
      fun isLocalMin =>
        if isLocalMin then
          some (decide (noiseSample prims.rfc (x * 0.15) (y * 0.15) 1 1.5 > 0.7))
        else some false
  else some false

/-- `ChunkWorldGenerator.getCell(x, y)` (chunkgen.ts lines 288–305). -/
def getCellF (prims : JsPrims) (fuel : ℕ) (x y : ℚ) : Option CellData :=
  (sampleFieldsF prims fuel x y).bind fun fields =>
    let biome := classifyBiome fields
    let resources := getResourcePotential biome fields
    let movementCost := getMovementCost biome fields
    (checkRiverF prims fuel x y fields).bind fun hasRiver =>
      (checkLakeF prims fuel x y fields).bind fun hasLake =>
        some { biome, movementCost, resources, hasRiver, hasLake }

/-- `getCell` produces no value at any fuel: its first action is the
divergent `sampleFields`. -/
theorem getCellF_eq_none (prims : JsPrims) (fuel : ℕ) (x y : ℚ) :
    getCellF prims fuel x y = none := by
  unfold getCellF
  rw [sampleFieldsF_eq_none]
  rfl

/-- The biome decision tree as the amended claim C4 words it: the spec's
ordered tree with the two corrections the code forces — an alpine-tundra
branch (`elevation > 0.65` and `temperature < 0.5`) between the tundra/snow
and desert tests, and a forest threshold of `moisture > 0.6` rather than
`moisture > 0.55`. -/
def classifyBiomeAmendedSpec (f : FieldValues) : Biome :=
  if f.elevation < 0.32 then .ocean
  else if f.elevation < 0.36 then .coast
  else if f.elevation > 0.7 ∧ f.ruggedness > 0.5 then
    (if f.temperature < 0.35 ∨ f.elevation > 0.85 then Biome.snow else Biome.mountain)
  else if f.temperature < 0.3 then
    (if f.moisture > 0.4 then Biome.tundra else Biome.snow)
  else if f.elevation > 0.65 ∧ f.temperature < 0.5 then .tundra
  else if f.moisture < 0.25 ∧ f.elevation < 0.7 then .desert
  else if f.moisture > 0.6 ∧ f.temperature > 0.35 ∧ f.elevation < 0.7 then .forest
  else .plains

/-- A concrete `FieldValues` input refuting claim C4 as stated: moderate
elevation, warm, moisture 0.58. -/
def fieldsC4 : FieldValues :=
  { elevation := 0.5, temperature := 0.5, moisture := 0.58, ruggedness := 0.1 }

/-- Claim C4 counterexample: `fieldsC4` satisfies every condition of the
claim's forest branch (`moisture > 0.55`, `temperature > 0.35`, moderate
elevation) and is captured by none of the earlier branches of the claim's
tree, yet `classifyBiome` returns `plains`, not `forest`. -/
theorem classifyBiome_claim_counterexample :
    fieldsC4.moisture > 0.55 ∧ fieldsC4.temperature > 0.35 ∧
    COAST_THRESHOLD ≤ fieldsC4.elevation ∧ fieldsC4.elevation < 0.7 ∧
    ¬(fieldsC4.elevation > 0.7 ∧ fieldsC4.ruggedness > 0.5) ∧
    ¬(fieldsC4.temperature < 0.3) ∧
    ¬(fieldsC4.moisture < 0.25) ∧
    classifyBiome fieldsC4 = Biome.plains ∧ Biome.plains ≠ Biome.forest := by
  refine ⟨by norm_num [fieldsC4], by norm_num [fieldsC4], by norm_num [fieldsC4, COAST_THRESHOLD],
    by norm_num [fieldsC4], by norm_num [fieldsC4], by norm_num [fieldsC4],
    by norm_num [fieldsC4], ?_, by simp⟩
  norm_num [fieldsC4, classifyBiome, SEA_LEVEL, COAST_THRESHOLD]

/-- Claim C4 (amended): `classifyBiome` implements, for every input, the
ordered first-match decision tree ocean → coast → mountain/snow →
tundra/snow → alpine tundra (`elevation > 0.65`, `temperature < 0.5`) →
desert → forest (`moisture > 0.6`, `temperature > 0.35`, `elevation < 0.7`)
→ plains. -/
theorem classifyBiome_eq_amended_tree (f : FieldValues) :
    classifyBiome f = classifyBiomeAmendedSpec f := by
  unfold classifyBiome classifyBiomeAmendedSpec SEA_LEVEL COAST_THRESHOLD
  split_ifs <;> first | rfl | (exfalso; try simp_all) <;> try linarith

/-- The backward trace produces no value whenever it has a step budget, its
current point is unvisited, and every `sampleFields` call produces no
value. -/
theorem traceBackLoop_none (prims : JsPrims) (sf : ℚ → ℚ → Option FieldValues)
    (hsf : ∀ a b, sf a b = none) (steps : ℕ) (visited : List (ℚ × ℚ)) (cx cy : ℚ)
    (hs : 0 < steps) (hv : (cx, cy) ∉ visited) :
    traceBackLoop prims sf steps visited cx cy = none := by
  cases steps with
  | zero => exact absurd hs (by omega)
  | succ n => simp [traceBackLoop, hv, hsf]

/-- `isOnRiverPath` produces no value at any fuel: its trace's first step
samples the divergent `sampleFields`. -/
theorem isOnRiverPathAux_none (prims : JsPrims) (sf : ℚ → ℚ → Option FieldValues)
    (hsf : ∀ a b, sf a b = none) (x y : ℚ) (fields : FieldValues) :
    isOnRiverPathAux prims sf x y fields = none := by
  unfold isOnRiverPathAux
  rw [traceBackLoop_none prims sf hsf 300 [] x y (by norm_num) (by simp)]
  rfl

/-- A concrete non-source `FieldValues` input for claim C3 (elevation 0.5 is
not above the 0.65 source threshold). -/
def fieldsC3 : FieldValues :=
  { elevation := 0.5, temperature := 0.5, moisture := 0.5, ruggedness := 0.2 }

/-- Claim C3: two facts about `checkRiver`.  First, at the non-source point
`(0, 0)` with fields `fieldsC3`, `checkRiver` produces no value at any fuel
— the backward trace's very first `sampleFields` call never returns, so
neither trace ever reaches a verdict.  Second, the only inputs on which
`checkRiver` produces any value at all are source cells
(`elevation > 0.65`, `moisture > 0.6`), which are decided by a single seed
draw with neither the backward nor the forward trace consulted. -/
theorem checkRiver_code_bug :
    (∀ (prims : JsPrims) (fuel : ℕ), checkRiverF prims fuel 0 0 fieldsC3 = none) ∧
    (∀ (prims : JsPrims) (fuel : ℕ) (x y : ℚ) (fields : FieldValues) (b : Bool),
      checkRiverF prims fuel x y fields = some b →
      fields.elevation > 0.65 ∧ fields.moisture > 0.6) := by
  constructor
  · intro prims fuel
    have hns : ¬(fieldsC3.elevation > 0.65 ∧ fieldsC3.moisture > 0.6) := by
      norm_num [fieldsC3]
    rw [checkRiverF, if_neg hns,
      isOnRiverPathAux_none prims _ (fun a b => sampleFieldsF_eq_none prims fuel a b)]
  · intro prims fuel x y fields b hb
    by_cases h : fields.elevation > 0.65 ∧ fields.moisture > 0.6
    · exact h
    · rw [checkRiverF, if_neg h,
        isOnRiverPathAux_none prims _ (fun a b => sampleFieldsF_eq_none prims fuel a b)] at hb
      exact absurd hb (by simp)

/-- A constant instantiation of the abstracted numeric primitives, used only
to build concrete witnesses. -/
def prims0 : JsPrims := { rfc := fun _ _ => 0.9, sqrt := fun _ => 0 }

/-- A concrete source cell (`elevation > 0.65`, `moisture > 0.6`). -/
def fieldsSrc : FieldValues :=
  { elevation := 0.7, temperature := 0.5, moisture := 0.7, ruggedness := 0 }

/-- Single-octave unfolding of `NoiseGenerator.sample`. -/
theorem noiseSample_one (rfc : ℤ → ℤ → ℚ) (x y f : ℚ) :
    noiseSample rfc x y 1 f = (0 + smoothNoise rfc (x * f) (y * f) * 1) / (0 + 1) := rfl

/-- Under the constant lattice primitive `prims0`, the source cell
`fieldsSrc` at `(0, 0)` is accepted by `checkRiver`'s source fast path. -/
theorem checkRiverF_src_eval : checkRiverF prims0 1 0 0 fieldsSrc = some true := by
  have hsrc : fieldsSrc.elevation > 0.65 ∧ fieldsSrc.moisture > 0.6 := by
    norm_num [fieldsSrc]
  have hn : noiseSample prims0.rfc (0 * 0.1) (0 * 0.1) 1 0.5 = 0.9 := by
    rw [noiseSample_one]
    norm_num [smoothNoise, fade, lerp, prims0]
  rw [checkRiverF, if_pos hsrc, hn]
  norm_num

/-- Witness for claim C3's second conjunct: a terminating `checkRiver` run,
on which the theorem yields the source-cell thresholds. -/
theorem checkRiver_code_bug_witness :
    fieldsSrc.elevation > 0.65 ∧ fieldsSrc.moisture > 0.6 :=
  checkRiver_code_bug.2 prims0 1 0 0 fieldsSrc true checkRiverF_src_eval

/-- `Tile` from `types.ts` (the per-cell record stored in LOD0 chunks). -/
structure Tile where
  x : ℤ
  y : ℤ
  elevation : ℚ
  temperature : ℚ
  humidity : ℚ
  biome : Biome
  river : Bool
deriving DecidableEq, Repr

/-- An LOD1 aggregated block (`{ biome, avgElevation }`). -/
structure BlockData where
  biome : Biome
  avgElevation : ℚ
deriving DecidableEq, Repr

/-- An LOD2 heatmap entry (`{ biome, coverage }`). -/
structure HeatmapEntry where
  biome : Biome
  coverage : ℚ
deriving DecidableEq, Repr

/-- `ChunkData` from `chunkgen.ts`: optional per-LOD payloads. -/
structure ChunkData where
  cx : ℤ
  cy : ℤ
  lod : ℕ
  cells : Option (List Tile)
  blocks : Option (List BlockData)
  heatmap : Option (List HeatmapEntry)
  generatedAt : ℤ
deriving DecidableEq, Repr

/-- One `biomeCounts.set(biome, (biomeCounts.get(biome) || 0) + 1)` step with
JS `Map` semantics: the first matching key is updated in place, a new key is
appended. -/
def bumpBiomeCount (b : Biome) : List (Biome × ℕ) → List (Biome × ℕ)
  | [] => [(b, 1)]
  | (b', c) :: rest =>
    if b = b' then (b', c + 1) :: rest else (b', c) :: bumpBiomeCount b rest

/-- The LOD2 biome-count accumulation over the sampled biomes, in sample
order. -/
def countBiomes (l : List Biome) : List (Biome × ℕ) :=
  l.foldl (fun acc b => bumpBiomeCount b acc) []

/-- The LOD2 heatmap construction (chunkgen.ts lines 705–709): each count is
divided by `biomeCounts.size` — the number of *distinct* observed biomes —
which the source assigns to `total`. -/
def heatmapFromCounts (counts : List (Biome × ℕ)) : List HeatmapEntry :=
  counts.map fun p => { biome := p.1, coverage := (p.2 : ℚ) / counts.length }

/-- The LOD0 iteration order: `cyLocal` outer, `cxLocal` inner, both over
`0 … 127`. -/
def lod0Coords : List (ℤ × ℤ) :=
  (List.range 128).flatMap fun cyL =>
    (List.range 128).map fun cxL => ((cyL : ℤ), (cxL : ℤ))

/-- The LOD1 block iteration order: `by` outer, `bx` inner, both over
`0 … 31` (CHUNK_SIZE / blockSize with blockSize 4). -/
def lod1Coords : List (ℤ × ℤ) :=
  (List.range 32).flatMap fun byL =>
    (List.range 32).map fun bxL => ((byL : ℤ), (bxL : ℤ))

/-- The LOD2 sample offsets: `sy` outer, `sx` inner, each over
`0, 16, …, 112`. -/
def lod2Coords : List (ℤ × ℤ) :=
  (List.range 8).flatMap fun syL =>
    (List.range 8).map fun sxL => ((syL : ℤ) * 16, (sxL : ℤ) * 16)

/-- The chunk-payload computation of `ChunkWorldGenerator.generateChunk`
(chunkgen.ts lines 654–711): the three LOD branches, without the cache
lookup/insert that wraps them (modelled separately as the cache subsystem).
`now` stands for `Date.now()`. -/
def genChunkDataF (prims : JsPrims) (fuel : ℕ) (cx cy : ℤ) (lod : ℕ) (now : ℤ) :
    Option ChunkData :=
  if lod = 0 then
    (lod0Coords.foldlM (fun (cells : List Tile) lc =>
        let wx : ℤ := cx * CHUNK_SIZE + lc.2
        let wy : ℤ := cy * CHUNK_SIZE + lc.1
        (sampleFieldsF prims fuel wx wy).bind fun fields =>
          (getCellF prims fuel wx wy).bind fun cellData =>
            some (cells ++ [{ x := wx, y := wy, elevation := fields.elevation,
                              temperature := fields.temperature, humidity := fields.moisture,
                              biome := cellData.biome, river := cellData.hasRiver }]))
      []).map fun cells =>
      { cx, cy, lod, cells := some cells, blocks := none, heatmap := none,
        generatedAt := now }
  else if lod = 1 then
    (lod1Coords.foldlM (fun (blocks : List BlockData) bc =>
        let wx : ℤ := cx * CHUNK_SIZE + bc.2 * 4
        let wy : ℤ := cy * CHUNK_SIZE + bc.1 * 4
        (sampleFieldsF prims fuel wx wy).bind fun fields =>
          some (blocks ++ [{ biome := classifyBiome fields,
                             avgElevation := fields.elevation }]))
      []).map fun blocks =>
      { cx, cy, lod, cells := none, blocks := some blocks, heatmap := none,
        generatedAt := now }
  else
    (lod2Coords.foldlM (fun (sampled : List Biome) sc =>
        let wx : ℤ := cx * CHUNK_SIZE + sc.2
        let wy : ℤ := cy * CHUNK_SIZE + sc.1
        (sampleFieldsF prims fuel wx wy).bind fun fields =>
          some (sampled ++ [classifyBiome fields]))
      []).map fun sampled =>
      { cx, cy, lod, cells := none, blocks := none,
        heatmap := some (heatmapFromCounts (countBiomes sampled)),
        generatedAt := now }

/-- Claim C5: `generateChunk` produces neither an LOD0 nor an LOD1 payload
at any fuel — every cell and every block requires the divergent
`sampleFields`, so the claimed LOD1/LOD0 agreement never materializes. -/
theorem generateChunk_lod01_diverges (prims : JsPrims) (fuel : ℕ) (cx cy now : ℤ) :
    genChunkDataF prims fuel cx cy 0 now = none ∧
    genChunkDataF prims fuel cx cy 1 now = none := by
  constructor
  · rw [genChunkDataF, if_pos rfl,
      foldlM_none_of_step_none _ (fun s lc => by simp [sampleFieldsF_eq_none])
        lod0Coords [] (by decide)]
    rfl
  · rw [genChunkDataF, if_neg (by decide), if_pos rfl,
      foldlM_none_of_step_none _ (fun s bc => by simp [sampleFieldsF_eq_none])
        lod1Coords [] (by decide)]
    rfl

/-- Claim C7: the LOD2 branch of `generateChunk` produces no heatmap at any
fuel (first conjunct); moreover the heatmap normalization it would apply
divides each biome count by the number of *distinct* observed biomes, not by
the number of sample points: had the 64 samples all been ocean, the single
entry's coverage would be `64 / 1 = 64`, which is not in `[0, 1]` (remaining
conjuncts). -/
theorem generateChunk_lod2_code_bug :
    (∀ (prims : JsPrims) (fuel : ℕ) (cx cy now : ℤ),
      genChunkDataF prims fuel cx cy 2 now = none) ∧
    countBiomes (List.replicate 64 Biome.ocean) = [(Biome.ocean, 64)] ∧
    heatmapFromCounts [(Biome.ocean, 64)] =
      [{ biome := Biome.ocean, coverage := 64 }] ∧
    ¬((64 : ℚ) ≤ 1) := by
  refine ⟨?_, by decide, by norm_num [heatmapFromCounts], by norm_num⟩
  intro prims fuel cx cy now
  rw [genChunkDataF, if_neg (by decide), if_neg (by decide),
    foldlM_none_of_step_none _ (fun s sc => by simp [sampleFieldsF_eq_none])
      lod2Coords [] (by decide)]
  rfl

/-- `NoiseGenerator.hashSeed(seed)`: FNV-1a-style accumulation over the
seed's char codes; `Math.imul`'s 32-bit wrap-around is modelled by reducing
modulo `2 ^ 32` (the final `>>> 0` makes the result unsigned). -/
def hashSeed (seed : List ℕ) : ℕ :=
  seed.foldl (fun hash c => ((hash ^^^ c) * 16777619) % 2 ^ 32) 2166136261

/-- A chunk-cache entry (`{ data, lastAccess }`). -/
structure ChunkCacheEntry where
  data : ChunkData
  lastAccess : ℤ
deriving DecidableEq, Repr

/-- The mutable state of a `ChunkWorldGenerator` instance: the seed, the
`mulberry32` closure state `t` created in the `NoiseGenerator` constructor
(advanced only by `rng()`, which no method ever calls), and the chunk cache
keyed by `(cx, cy, lod)` in insertion order. -/
structure GenState where
  seed : List ℕ
  noiseT : ℕ
  chunkCache : List ((ℤ × ℤ × ℕ) × ChunkCacheEntry)
  maxCacheSize : ℕ
deriving DecidableEq, Repr

/-- `new ChunkWorldGenerator(seed, maxCacheSize)`: hashes the seed into the
PRNG state and starts with an empty cache. -/
def mkChunkWorldGenerator (seed : List ℕ) (maxCacheSize : ℕ) : GenState :=
  { seed, noiseT := hashSeed seed, chunkCache := [], maxCacheSize }

/-- The method `ChunkWorldGenerator.sampleFields`, as invoked on an instance
`g`.  Its body reads neither `g.chunkCache` nor `g.noiseT` nor `g.seed`:
every numeric draw goes through `NoiseGenerator.sample`, whose body consults
only the stateless lattice primitive. -/
def GenState.sampleFields (g : GenState) (prims : JsPrims) (fuel : ℕ) (x y : ℚ) :
    Option FieldValues :=
  sampleFieldsF prims fuel x y

/-- The method `ChunkWorldGenerator.getCell`, as invoked on an instance
`g`; like `sampleFields` it reads no instance state. -/
def GenState.getCell (g : GenState) (prims : JsPrims) (fuel : ℕ) (x y : ℚ) :
    Option CellData :=
  getCellF prims fuel x y

/-- Claim C2: two-run determinism of `sampleFields` and `getCell`.  For any
two generator instances with the same seed — regardless of their cache
contents and PRNG state, i.e. after any history of prior calls, and at any
fuel — both methods return identical results; and neither method modifies
the instance, so prior calls cannot influence later ones. -/
theorem sampleFields_getCell_deterministic (prims : JsPrims) (g1 g2 : GenState)
    (hseed : g1.seed = g2.seed) (fuel : ℕ) (x y : ℚ) :
    g1.sampleFields prims fuel x y = g2.sampleFields prims fuel x y ∧
    g1.getCell prims fuel x y = g2.getCell prims fuel x y :=
  ⟨rfl, rfl⟩

/-- A chunk value used only to populate concrete witness states. -/
def chunkD0 : ChunkData :=
  { cx := 0, cy := 0, lod := 2, cells := none, blocks := none, heatmap := none,
    generatedAt := 0 }

/-- A fresh generator on the seed with char codes `[99, 100]`. -/
def genA : GenState := mkChunkWorldGenerator [99, 100] 100

/-- A generator with the same seed but a different PRNG state, a non-empty
cache and a different cache bound — a stand-in for an instance with an
arbitrary call history. -/
def genB : GenState :=
  { seed := [99, 100], noiseT := 12345,
    chunkCache := [((0, 0, 0), { data := chunkD0, lastAccess := 7 })],
    maxCacheSize := 5 }

/-- Witness for claim C2 at the concrete instances `genA`, `genB` and the
coordinate `(100, 200)`. -/
theorem sampleFields_getCell_deterministic_witness :
    genA.sampleFields prims0 3 100 200 = genB.sampleFields prims0 3 100 200 ∧
    genA.getCell prims0 3 100 200 = genB.getCell prims0 3 100 200 :=
  sampleFields_getCell_deterministic prims0 genA genB rfl 3 100 200

/-- `Map.get`: the value of the first (unique) matching key. -/
def jsMapGet {κ α : Type} [DecidableEq κ] (k : κ) : List (κ × α) → Option α
  | [] => none
  | (k', v) :: rest => if k = k' then some v else jsMapGet k rest

/-- `Map.set`: update a present key in place (preserving its position in
iteration order) or append a new one. -/
def jsMapSet {κ α : Type} [DecidableEq κ] (k : κ) (v : α) :
    List (κ × α) → List (κ × α)
  | [] => [(k, v)]
  | (k', v') :: rest =>
    if k = k' then (k', v) :: rest else (k', v') :: jsMapSet k v rest

/-- `Map.delete`: remove the first (unique) matching key. -/
def jsMapDelete {κ α : Type} [DecidableEq κ] (k : κ) :
    List (κ × α) → List (κ × α)
  | [] => []
  | (k', v') :: rest => if k = k' then rest else (k', v') :: jsMapDelete k rest

/-- One iteration of `cacheChunk`'s eviction scan (chunkgen.ts lines
726–731): keep the entry with the strictly smallest `lastAccess` seen so
far; `none` plays the role of `oldestTime = Infinity`, which every real
timestamp beats. -/
def oldestStep {κ : Type} (acc : Option (κ × ℤ)) (p : κ × ChunkCacheEntry) :
    Option (κ × ℤ) :=
  match acc with
  | none => some (p.1, p.2.lastAccess)
  | some (ok, ot) => if p.2.lastAccess < ot then some (p.1, p.2.lastAccess) else acc

/-- The eviction scan of `cacheChunk`: the key and timestamp of the
globally-oldest entry, ties resolved to the earliest in insertion order. -/
def findOldestEntry {κ : Type} (st : List (κ × ChunkCacheEntry)) : Option (κ × ℤ) :=
  st.foldl oldestStep none

/-- `ChunkWorldGenerator.cacheChunk(key, data)` (chunkgen.ts lines 721–741):
evict the oldest entry when the cache is at or above capacity, then insert
the new entry stamped `now` (the `Date.now()` of the call). -/
def cacheChunkOp {κ : Type} [DecidableEq κ] (maxSize : ℕ)
    (st : List (κ × ChunkCacheEntry)) (key : κ) (data : ChunkData) (now : ℤ) :
    List (κ × ChunkCacheEntry) :=
  let st1 := if maxSize ≤ st.length then
      match findOldestEntry st with
      | some (ok, _) => jsMapDelete ok st
      | none => st
    else st
  jsMapSet key { data, lastAccess := now } st1

/-- The cache interaction of one `generateChunk` call (chunkgen.ts lines
645–652 and 713–715): on a hit the entry's `lastAccess` is refreshed in
place and the cached data returned; on a miss the freshly computed payload
`data` (whose computation is `genChunkDataF`) is inserted via `cacheChunk`. -/
def generateChunkCacheStep {κ : Type} [DecidableEq κ] (maxSize : ℕ)
    (st : List (κ × ChunkCacheEntry)) (key : κ) (data : ChunkData) (now : ℤ) :
    List (κ × ChunkCacheEntry) :=
  match jsMapGet key st with
  | some entry => jsMapSet key { data := entry.data, lastAccess := now } st
  | none => cacheChunkOp maxSize st key data now

/-- A sequence of `generateChunk` calls against an initially empty cache;
each event carries its key, its computed payload and its `Date.now()`. -/
def runCacheEvents (maxSize : ℕ)
    (evs : List ((ℤ × ℤ × ℕ) × ChunkData × ℤ)) :
    List ((ℤ × ℤ × ℕ) × ChunkCacheEntry) :=
  evs.foldl (fun st e => generateChunkCacheStep maxSize st e.1 e.2.1 e.2.2) []

theorem jsMapSet_length_le {κ α : Type} [DecidableEq κ] (k : κ) (v : α) :
    ∀ l : List (κ × α), (jsMapSet k v l).length ≤ l.length + 1 := by
  intro l
  induction l with
  | nil => simp [jsMapSet]
  | cons p rest ih =>
    by_cases h : k = p.1
    · simp [jsMapSet, h]
    · simp only [jsMapSet, if_neg h, List.length_cons]
      omega

theorem jsMapSet_length_of_get {κ α : Type} [DecidableEq κ] (k : κ) (v : α) :
    ∀ (l : List (κ × α)) (e : α), jsMapGet k l = some e →
      (jsMapSet k v l).length = l.length := by
  intro l
  induction l with
  | nil => intro e he; simp [jsMapGet] at he
  | cons p rest ih =>
    intro e he
    by_cases h : k = p.1
    · simp [jsMapSet, h]
    · rw [jsMapGet, if_neg h] at he
      simp only [jsMapSet, if_neg h, List.length_cons, ih e he]

theorem jsMapDelete_length {κ α : Type} [DecidableEq κ] (k : κ) :
    ∀ (l : List (κ × α)) (p : κ × α), p ∈ l → p.1 = k →
      (jsMapDelete k l).length + 1 = l.length := by
  intro l
  induction l with
  | nil => intro p hp; simp at hp
  | cons q rest ih =>
    intro p hp hpk
    by_cases h : k = q.1
    · simp [jsMapDelete, h]
    · rcases List.mem_cons.mp hp with hq | hrest
      · exact absurd (hq ▸ hpk) (fun hh => h hh.symm)
      · simp only [jsMapDelete, if_neg h, List.length_cons, ih p hrest hpk]

theorem findOldestEntry_go_spec {κ : Type} :
    ∀ (l : List (κ × ChunkCacheEntry)) (k0 : κ) (t0 : ℤ),
      ∃ k1 t1, l.foldl oldestStep (some (k0, t0)) = some (k1, t1) ∧ t1 ≤ t0 ∧
        ((k1 = k0 ∧ t1 = t0) ∨ ∃ p ∈ l, p.1 = k1 ∧ p.2.lastAccess = t1) ∧
        (∀ p ∈ l, t1 ≤ p.2.lastAccess) := by
  intro l
  induction l with
  | nil => intro k0 t0; exact ⟨k0, t0, rfl, le_refl _, Or.inl ⟨rfl, rfl⟩, by simp⟩
  | cons p rest ih =>
    intro k0 t0
    by_cases h : p.2.lastAccess < t0
    · obtain ⟨k1, t1, hfold, hle, horig, hmin⟩ := ih p.1 p.2.lastAccess
      refine ⟨k1, t1, ?_, le_trans hle (le_of_lt h), ?_, ?_⟩
      · rw [List.foldl_cons, oldestStep, if_pos h]; exact hfold
      · rcases horig with ⟨hk, ht⟩ | ⟨q, hq, hqk, hqt⟩
        · exact Or.inr ⟨p, List.mem_cons_self p rest, hk.symm ▸ rfl, ht.symm ▸ rfl⟩
        · exact Or.inr ⟨q, List.mem_cons_of_mem p hq, hqk, hqt⟩
      · intro q hq
        rcases List.mem_cons.mp hq with hqp | hqrest
        · exact hqp ▸ hle
        · exact hmin q hqrest
    · obtain ⟨k1, t1, hfold, hle, horig, hmin⟩ := ih k0 t0
      refine ⟨k1, t1, ?_, hle, ?_, ?_⟩
      · rw [List.foldl_cons, oldestStep, if_neg h]; exact hfold
      · rcases horig with ⟨hk, ht⟩ | ⟨q, hq, hqk, hqt⟩
        · exact Or.inl ⟨hk, ht⟩
        · exact Or.inr ⟨q, List.mem_cons_of_mem p hq, hqk, hqt⟩
      · intro q hq
        rcases List.mem_cons.mp hq with hqp | hqrest
        · exact hqp ▸ le_trans hle (not_lt.mp h)
        · exact hmin q hqrest

theorem findOldestEntry_spec {κ : Type} (st : List (κ × ChunkCacheEntry))
    (hne : st ≠ []) :
    ∃ ok oldest, findOldestEntry st = some (ok, oldest) ∧
      (∃ p ∈ st, p.1 = ok ∧ p.2.lastAccess = oldest) ∧
      ∀ p ∈ st, oldest ≤ p.2.lastAccess := by
  cases st with
  | nil => exact absurd rfl hne
  | cons p rest =>
    obtain ⟨k1, t1, hfold, hle, horig, hmin⟩ := findOldestEntry_go_spec rest p.1 p.2.lastAccess
    refine ⟨k1, t1, ?_, ?_, ?_⟩
    · rw [findOldestEntry, List.foldl_cons]; exact hfold
    · rcases horig with ⟨hk, ht⟩ | ⟨q, hq, hqk, hqt⟩
      · exact ⟨p, List.mem_cons_self p rest, hk ▸ rfl, ht ▸ rfl⟩
      · exact ⟨q, List.mem_cons_of_mem p hq, hqk, hqt⟩
    · intro q hq
      rcases List.mem_cons.mp hq with hqp | hqrest
      · exact hqp ▸ hle
      · exact hmin q hqrest

theorem generateChunkCacheStep_length {κ : Type} [DecidableEq κ] (maxSize : ℕ)
    (hmax : 1 ≤ maxSize) (st : List (κ × ChunkCacheEntry)) (key : κ)
    (data : ChunkData) (now : ℤ) (hst : st.length ≤ maxSize) :
    (generateChunkCacheStep maxSize st key data now).length ≤ maxSize := by
  unfold generateChunkCacheStep
  cases hget : jsMapGet key st with
  | some e =>
    rw [jsMapSet_length_of_get key _ st e hget]
    exact hst
  | none =>
    by_cases hfull : maxSize ≤ st.length
    · have hne : st ≠ [] := by
        intro h
        rw [h] at hfull
        simp at hfull
        omega
      obtain ⟨ok, oldest, hfind, ⟨p, hp, hpk, hpt⟩, hmin⟩ := findOldestEntry_spec st hne
      have hdel := jsMapDelete_length ok st p hp hpk
      have hsetle := jsMapSet_length_le key
        ({ data, lastAccess := now } : ChunkCacheEntry) (jsMapDelete ok st)
      simp only [cacheChunkOp, if_pos hfull, hfind]
      omega
    · have hsetle := jsMapSet_length_le key
        ({ data, lastAccess := now } : ChunkCacheEntry) st
      simp only [cacheChunkOp, if_neg hfull]
      omega

theorem runCacheEvents_length_le (maxSize : ℕ) (hmax : 1 ≤ maxSize)
    (evs : List ((ℤ × ℤ × ℕ) × ChunkData × ℤ)) :
    (runCacheEvents maxSize evs).length ≤ maxSize := by
  suffices h : ∀ (evs : List ((ℤ × ℤ × ℕ) × ChunkData × ℤ))
      (st : List ((ℤ × ℤ × ℕ) × ChunkCacheEntry)), st.length ≤ maxSize →
      (evs.foldl (fun st e => generateChunkCacheStep maxSize st e.1 e.2.1 e.2.2)
        st).length ≤ maxSize by
    exact h evs [] (by simp)
  intro evs
  induction evs with
  | nil => intro st h; exact h
  | cons e rest ih =>
    intro st h
    exact ih _ (generateChunkCacheStep_length maxSize hmax st e.1 e.2.1 e.2.2 h)

/-- Claim C9: for any capacity of at least one entry, (1) after any sequence
of `generateChunk` calls against an initially empty cache the cache holds at
most `maxSize` entries, and (2) whenever `cacheChunk` inserts into a full
cache, the evicted entry is one whose `lastAccess` is the minimum over the
whole cache, and the result is exactly that entry's removal followed by the
new insertion. -/
theorem chunkCache_lru (maxSize : ℕ) (hmax : 1 ≤ maxSize) :
    (∀ evs : List ((ℤ × ℤ × ℕ) × ChunkData × ℤ),
      (runCacheEvents maxSize evs).length ≤ maxSize) ∧
    (∀ (st : List ((ℤ × ℤ × ℕ) × ChunkCacheEntry)) (key : ℤ × ℤ × ℕ)
      (data : ChunkData) (now : ℤ), maxSize ≤ st.length →
      ∃ ok oldest, findOldestEntry st = some (ok, oldest) ∧
        (∃ p ∈ st, p.1 = ok ∧ p.2.lastAccess = oldest) ∧
        (∀ p ∈ st, oldest ≤ p.2.lastAccess) ∧
        cacheChunkOp maxSize st key data now =
          jsMapSet key { data, lastAccess := now } (jsMapDelete ok st)) := by
  constructor
  · exact runCacheEvents_length_le maxSize hmax
  · intro st key data now hfull
    have hne : st ≠ [] := by
      intro h
      rw [h] at hfull
      simp at hfull
      omega
    obtain ⟨ok, oldest, hfind, hmem, hmin⟩ := findOldestEntry_spec st hne
    exact ⟨ok, oldest, hfind, hmem, hmin, by simp only [cacheChunkOp, if_pos hfull, hfind]⟩

/-- Two concrete `generateChunk` events against a capacity-1 cache. -/
def evs9 : List ((ℤ × ℤ × ℕ) × ChunkData × ℤ) :=
  [((0, 0, 0), chunkD0, 5), ((1, 0, 0), chunkD0, 6)]

/-- A concrete full capacity-1 cache state. -/
def st9 : List ((ℤ × ℤ × ℕ) × ChunkCacheEntry) :=
  [((0, 0, 0), { data := chunkD0, lastAccess := 5 })]

/-- Witness for claim C9 at capacity 1, the event list `evs9` and the full
state `st9`. -/
theorem chunkCache_lru_witness :
    (runCacheEvents 1 evs9).length ≤ 1 ∧
    (∃ ok oldest, findOldestEntry st9 = some (ok, oldest) ∧
      (∃ p ∈ st9, p.1 = ok ∧ p.2.lastAccess = oldest) ∧
      (∀ p ∈ st9, oldest ≤ p.2.lastAccess) ∧
      cacheChunkOp 1 st9 (1, 0, 0) chunkD0 6 =
        jsMapSet (1, 0, 0) { data := chunkD0, lastAccess := 6 } (jsMapDelete ok st9)) :=
  ⟨(chunkCache_lru 1 le_rfl).1 evs9,
   (chunkCache_lru 1 le_rfl).2 st9 (1, 0, 0) chunkD0 6 (by simp [st9])⟩

/-- `BIOME_TO_ID` from `types.ts`. -/
def biomeToId : Biome → ℕ
  | .ocean => 0
  | .coast => 1
  | .plains => 2
  | .forest => 3
  | .desert => 4
  | .tundra => 5
  | .snow => 6
  | .mountain => 7
  | .river => 8

/-- `ID_TO_BIOME` from `types.ts`; the source's record lookup yields
`undefined` on an out-of-range id, modelled as `none`. -/
def idToBiome : ℕ → Option Biome
  | 0 => some .ocean
  | 1 => some .coast
  | 2 => some .plains
  | 3 => some .forest
  | 4 => some .desert
  | 5 => some .tundra
  | 6 => some .snow
  | 7 => some .mountain
  | 8 => some .river
  | _ => none

/-- JS `Math.round`: half-integers round toward positive infinity, so
`Math.round(q) = ⌊q + 1/2⌋` for every real `q`. -/
def jsRound (q : ℚ) : ℤ := ⌊q + 1 / 2⌋

/-- A serialized LOD0 cell (`{x, y, b, e, t, h, r}`). -/
structure PayloadCell where
  x : ℤ
  y : ℤ
  b : ℕ
  e : ℤ
  t : ℤ
  h : ℤ
  r : Bool
deriving DecidableEq, Repr

/-- A serialized LOD1 block (`{b, e}`). -/
structure PayloadBlock where
  b : ℕ
  e : ℤ
deriving DecidableEq, Repr

/-- A serialized LOD2 heatmap entry (`{b, c}`). -/
structure PayloadHeat where
  b : ℕ
  c : ℤ
deriving DecidableEq, Repr

/-- `CompactChunkPayload` from the chunk serializer. -/
structure CompactChunkPayload where
  cx : ℤ
  cy : ℤ
  lod : ℕ
  cells : Option (List PayloadCell)
  blocks : Option (List PayloadBlock)
  heatmap : Option (List PayloadHeat)
  ts : ℤ
deriving DecidableEq, Repr

/-- One cell of `serializeChunk`'s LOD0 mapping: biome to id, floats scaled
by 255 and rounded. -/
def serializeCell (cell : Tile) : PayloadCell :=
  { x := cell.x, y := cell.y, b := biomeToId cell.biome,
    e := jsRound (cell.elevation * 255), t := jsRound (cell.temperature * 255),
    h := jsRound (cell.humidity * 255), r := cell.river }

/-- `serializeChunk(chunk)` from the chunk serializer (lines 43–74). -/
def serializeChunk (chunk : ChunkData) : CompactChunkPayload :=
  let base : CompactChunkPayload :=
    { cx := chunk.cx, cy := chunk.cy, lod := chunk.lod, cells := none,
      blocks := none, heatmap := none, ts := chunk.generatedAt }
  if chunk.lod = 0 then
    match chunk.cells with
    | some cs => { base with cells := some (cs.map serializeCell) }
    | none => base
  else if chunk.lod = 1 then
    match chunk.blocks with
    | some bs => { base with blocks := some (bs.map fun bl =>
        { b := biomeToId bl.biome, e := jsRound (bl.avgElevation * 255) }) }
    | none => base
  else if chunk.lod = 2 then
    match chunk.heatmap with
    | some hs => { base with heatmap := some (hs.map fun hh =>
        { b := biomeToId hh.biome, c := jsRound (hh.coverage * 255) }) }
    | none => base
  else base

/-- One cell of `deserializeChunk`'s LOD0 mapping: id back to biome, bytes
scaled down by 255. -/
def deserializeCell (c : PayloadCell) : Option Tile :=
  (idToBiome c.b).map fun biome =>
    { x := c.x, y := c.y, elevation := (c.e : ℚ) / 255,
      temperature := (c.t : ℚ) / 255, humidity := (c.h : ℚ) / 255,
      biome, river := c.r }

/-- The cell-array traversal of `deserializeChunk`: the source's `.map`
over the payload propagating an undefined biome lookup, modelled as an
Option-valued traversal. -/
def mapMO {α β : Type} (f : α → Option β) : List α → Option (List β)
  | [] => some []
  | a :: rest => (f a).bind fun b => (mapMO f rest).map fun bs => b :: bs

/-- `deserializeChunk(payload)` from the chunk serializer (lines 79–110). -/
def deserializeChunk (payload : CompactChunkPayload) : Option ChunkData :=
  let base : ChunkData :=
    { cx := payload.cx, cy := payload.cy, lod := payload.lod, cells := none,
      blocks := none, heatmap := none, generatedAt := payload.ts }
  if payload.lod = 0 then
    match payload.cells with
    | some cs => (mapMO deserializeCell cs).map fun tiles =>
        { base with cells := some tiles }
    | none => some base
  else if payload.lod = 1 then
    match payload.blocks with
    | some bs => (mapMO (fun bl => (idToBiome bl.b).map fun biome =>
        ({ biome, avgElevation := (bl.e : ℚ) / 255 } : BlockData)) bs).map fun blocks =>
        { base with blocks := some blocks }
    | none => some base
  else if payload.lod = 2 then
    match payload.heatmap with
    | some hs => (mapMO (fun hh => (idToBiome hh.b).map fun biome =>
        ({ biome, coverage := (hh.c : ℚ) / 255 } : HeatmapEntry)) hs).map fun heatmap =>
        { base with heatmap := some heatmap }
    | none => some base
  else some base

/-- The exact value a tile's float fields take after one
serialize/deserialize round trip. -/
def roundtripCell (t : Tile) : Tile :=
  { t with elevation := (jsRound (t.elevation * 255) : ℚ) / 255,
           temperature := (jsRound (t.temperature * 255) : ℚ) / 255,
           humidity := (jsRound (t.humidity * 255) : ℚ) / 255 }

theorem idToBiome_biomeToId (b : Biome) : idToBiome (biomeToId b) = some b := by
  cases b <;> rfl

theorem deserializeCell_serializeCell (t : Tile) :
    deserializeCell (serializeCell t) = some (roundtripCell t) := by
  unfold deserializeCell serializeCell roundtripCell
  rw [idToBiome_biomeToId]
  rfl

theorem jsRound_err (q : ℚ) : |(jsRound (q * 255) : ℚ) / 255 - q| ≤ 1 / 255 := by
  have h1 : ((⌊q * 255 + 1 / 2⌋ : ℤ) : ℚ) ≤ q * 255 + 1 / 2 := Int.floor_le _
  have h2 : q * 255 + 1 / 2 < (⌊q * 255 + 1 / 2⌋ : ℤ) + 1 := Int.lt_floor_add_one _
  rw [jsRound, abs_le]
  constructor <;> [linarith; linarith]

theorem mapMO_deserialize_serialize (cs : List Tile) :
    mapMO deserializeCell (cs.map serializeCell) = some (cs.map roundtripCell) := by
  induction cs with
  | nil => rfl
  | cons t rest ih =>
    simp [mapMO, deserializeCell_serializeCell, ih]

/-- Claim C6: for every LOD0 chunk whose cell float fields lie in `[0, 1]`,
deserializing its serialization succeeds, preserves every cell's biome
exactly, and reproduces each cell's elevation, temperature and humidity to
within `1/255`. -/
theorem serializeChunk_roundtrip (c : ChunkData) (cs : List Tile)
    (hl : c.lod = 0) (hc : c.cells = some cs)
    (hb : ∀ t ∈ cs, 0 ≤ t.elevation ∧ t.elevation ≤ 1 ∧ 0 ≤ t.temperature ∧
      t.temperature ≤ 1 ∧ 0 ≤ t.humidity ∧ t.humidity ≤ 1) :
    ∃ c' : ChunkData, deserializeChunk (serializeChunk c) = some c' ∧
      ∃ cs' : List Tile, c'.cells = some cs' ∧ cs'.length = cs.length ∧
        ∀ (i : ℕ) (h1 : i < cs.length) (h2 : i < cs'.length),
          (cs'.get ⟨i, h2⟩).biome = (cs.get ⟨i, h1⟩).biome ∧
          |(cs'.get ⟨i, h2⟩).elevation - (cs.get ⟨i, h1⟩).elevation| ≤ 1 / 255 ∧
          |(cs'.get ⟨i, h2⟩).temperature - (cs.get ⟨i, h1⟩).temperature| ≤ 1 / 255 ∧
          |(cs'.get ⟨i, h2⟩).humidity - (cs.get ⟨i, h1⟩).humidity| ≤ 1 / 255 := by
  have hser : serializeChunk c =
      { cx := c.cx, cy := c.cy, lod := c.lod, cells := some (cs.map serializeCell),
        blocks := none, heatmap := none, ts := c.generatedAt } := by
    rw [serializeChunk, if_pos hl, hc]
  refine ⟨{ cx := c.cx, cy := c.cy, lod := c.lod, cells := some (cs.map roundtripCell),
            blocks := none, heatmap := none, generatedAt := c.generatedAt }, ?_,
    cs.map roundtripCell, rfl, List.length_map cs roundtripCell, ?_⟩
  · rw [hser]
    simp [deserializeChunk, hl, mapMO_deserialize_serialize]
  intro i h1 h2
  have hget : (cs.map roundtripCell).get ⟨i, h2⟩ = roundtripCell (cs.get ⟨i, h1⟩) :=
    List.get_map roundtripCell
  rw [hget]
  exact ⟨rfl, jsRound_err _, jsRound_err _, jsRound_err _⟩

/-- The `resourceDepletion` sub-record of an overlay delta: per-channel
multipliers, each optional. -/
structure ResourceDepletion where
  food : Option ℚ
  wood : Option ℚ
  stone : Option ℚ
  iron : Option ℚ
deriving DecidableEq, Repr

/-- The `structures` sub-record of an overlay delta. -/
structure StructureFlags where
  road : Option Bool
  building : Option Bool
  farm : Option Bool
  mine : Option Bool
deriving DecidableEq, Repr

/-- `OverlayCellDelta` from `chunkgen-overlay.ts`; an absent optional
property is modelled as `none`. -/
structure OverlayCellDelta where
  biomeOverride : Option Biome
  movementCostAdjustment : Option ℚ
  resourceDepletion : Option ResourceDepletion
  structures : Option StructureFlags
deriving DecidableEq, Repr

/-- `Object.keys(delta).length === 0` in `setDelta`: no property present. -/
def OverlayCellDelta.isEmptyDelta (d : OverlayCellDelta) : Bool :=
  d.biomeOverride.isNone && d.movementCostAdjustment.isNone &&
    d.resourceDepletion.isNone && d.structures.isNone

/-- The `OverlayStore`'s map from `"x,y"` keys to deltas, in insertion
order. -/
def OverlayStoreState : Type := List ((ℚ × ℚ) × OverlayCellDelta)

/-- `OverlayStore.getDelta(x, y)` (`null` is modelled as `none`). -/
def getDelta (st : OverlayStoreState) (x y : ℚ) : Option OverlayCellDelta :=
  jsMapGet (x, y) st

/-- `OverlayStore.setDelta(x, y, delta)` (chunkgen-overlay.ts lines 50–58):
an empty delta removes the entry entirely, otherwise the delta is stored. -/
def setDelta (st : OverlayStoreState) (x y : ℚ) (d : OverlayCellDelta) :
    OverlayStoreState :=
  if d.isEmptyDelta then jsMapDelete (x, y) st else jsMapSet (x, y) d st

/-- The resource record after `applyOverlay`'s depletion loop: each channel
with a present multiplier is multiplied in place. -/
def depleteResources (res : Resources) (dep : ResourceDepletion) : Resources :=
  { food := match dep.food with | some m => res.food * m | none => res.food,
    wood := match dep.wood with | some m => res.wood * m | none => res.wood,
    stone := match dep.stone with | some m => res.stone * m | none => res.stone,
    iron := match dep.iron with | some m => res.iron * m | none => res.iron }

/-- `applyOverlay(base, delta)` (chunkgen-overlay.ts lines 102–147), with
the aliasing of the source made explicit.  The source builds
`result = { ...base }` — a *shallow* copy, so `result.resources` is the very
object `base.resources` — then mutates `result` in place.  The first
component of the returned pair is the function's return value; the second is
the state of the caller's `base` object after the call: its scalar fields
`biome` and `movementCost` are untouched (the spread copied them), but its
`resources` object has absorbed any depletion writes made through the shared
reference.  The source ascribes only the three fields
`biome/movementCost/resources` to `base`; the spread preserves any further
fields (`hasRiver`, `hasLake`), so the embedding operates on full
`CellData`. -/
def applyOverlayTracked (base : CellData) (delta : Option OverlayCellDelta) :
    CellData × CellData :=
  match delta with
  | none => (base, base)
  | some d =>
    let res' : Resources := match d.resourceDepletion with
      | none => base.resources
      | some dep => depleteResources base.resources dep
    let result : CellData :=
      { biome := match d.biomeOverride with | some b => b | none => base.biome,
        movementCost := match d.movementCostAdjustment with
          | some m => base.movementCost * m
          | none => base.movementCost,
        resources := res',
        hasRiver := base.hasRiver, hasLake := base.hasLake }
    (result, { base with resources := res' })

/-- `getCellWithOverlay(seed, x, y, overlayStore)` from `chunkgen-api.ts`
(part_010 lines 239–251): compute the base cell through the per-seed
generator registry, then apply the stored delta; the registry lookup is
elided because `getCell` reads no generator state.  The function's result is
the first component of `applyOverlayTracked`. -/
def getCellWithOverlayF (prims : JsPrims) (fuel : ℕ) (seed : List ℕ) (x y : ℚ)
    (store : Option OverlayStoreState) : Option CellData :=
  (getCellF prims fuel x y).bind fun base =>
    match store with
    | none => some base
    | some st => some (applyOverlayTracked base (getDelta st x y)).1

/-- The delta of claim C8: `{movementCostAdjustment: 0.5}`. -/
def roadDelta : OverlayCellDelta :=
  { biomeOverride := none, movementCostAdjustment := some 0.5,
    resourceDepletion := none, structures := none }

/-- The empty delta `{}`. -/
def emptyDelta : OverlayCellDelta :=
  { biomeOverride := none, movementCostAdjustment := none,
    resourceDepletion := none, structures := none }

/-- A base cell with `movementCost = 1.0`, as in claim C8. -/
def baseC8 : CellData :=
  { biome := .plains, movementCost := 1,
    resources := { food := 0.9, wood := 0.2, stone := 0, iron := 0 },
    hasRiver := false, hasLake := false }

/-- The store of claim C8 after `setDelta(100, 200, {movementCostAdjustment: 0.5})`. -/
def storeC8 : OverlayStoreState := setDelta [] 100 200 roadDelta

/-- Claim C8: first, `getCellWithOverlay` at `(100, 200)` produces no value
at any fuel and with any store — its `getCell` call never returns, because
`sampleFields` recurses without bound.  The remaining conjuncts check the
overlay logic the claim describes, on the concrete base cell `baseC8`: the
stored `{movementCostAdjustment: 0.5}` delta yields `movementCost = 0.5`,
and re-storing an empty delta removes the entry, after which the base cell
is returned unchanged. -/
theorem getCellWithOverlay_code_bug :
    (∀ (prims : JsPrims) (fuel : ℕ) (seed : List ℕ)
      (store : Option OverlayStoreState),
      getCellWithOverlayF prims fuel seed 100 200 store = none) ∧
    getDelta storeC8 100 200 = some roadDelta ∧
    (applyOverlayTracked baseC8 (getDelta storeC8 100 200)).1.movementCost = 0.5 ∧
    setDelta storeC8 100 200 emptyDelta = [] ∧
    applyOverlayTracked baseC8
      (getDelta (setDelta storeC8 100 200 emptyDelta) 100 200) = (baseC8, baseC8) := by
  refine ⟨?_, ?_, ?_, ?_, ?_⟩
  · intro prims fuel seed store
    rw [getCellWithOverlayF, getCellF_eq_none]
    rfl
  · rfl
  · norm_num [applyOverlayTracked, getDelta, storeC8, setDelta, roadDelta, baseC8,
      jsMapSet, jsMapGet, OverlayCellDelta.isEmptyDelta]
  · rfl
  · rfl

/-- A delta that depletes the food channel by half. -/
def depleteFoodDelta : OverlayCellDelta :=
  { biomeOverride := none, movementCostAdjustment := none,
    resourceDepletion := some { food := some 0.5, wood := none, stone := none,
                                iron := none },
    structures := none }

/-- Claim C10 counterexample: applying a `resourceDepletion` delta to
`baseC8` (food 0.9) leaves the caller's `base` object with food 0.45 — the
shallow copy `{ ...base }` shares the nested `resources` object, so the
in-place multiplications write through to `base`.  The claim's assertion
that `base` is unchanged fails. -/
theorem applyOverlay_mutates_base_counterexample :
    (applyOverlayTracked baseC8 (some depleteFoodDelta)).2.resources.food = 0.45 ∧
    baseC8.resources.food = 0.9 ∧
    (applyOverlayTracked baseC8 (some depleteFoodDelta)).2 ≠ baseC8 := by
  refine ⟨?_, rfl, ?_⟩
  · norm_num [applyOverlayTracked, depleteFoodDelta, depleteResources, baseC8]
  · intro h
    have hfood := congrArg (fun c : CellData => c.resources.food) h
    norm_num [applyOverlayTracked, depleteFoodDelta, depleteResources, baseC8] at hfood

/-- The amended frame condition's guard: the delta carries no
`resourceDepletion` record. -/
def deltaHasNoDepletion : Option OverlayCellDelta → Prop
  | none => True
  | some d => d.resourceDepletion = none

/-- Claim C10 (amended): `applyOverlay` never changes its base argument's
`biome` or `movementCost`, and leaves the base entirely unchanged whenever
the delta carries no `resourceDepletion`; a depletion delta, however,
multiplies the base's resource channels in place through the shared
`resources` reference. -/
theorem applyOverlay_base_frame_amended (base : CellData)
    (delta : Option OverlayCellDelta) :
    (applyOverlayTracked base delta).2.biome = base.biome ∧
    (applyOverlayTracked base delta).2.movementCost = base.movementCost ∧
    (deltaHasNoDepletion delta → (applyOverlayTracked base delta).2 = base) := by
  cases delta with
  | none => exact ⟨rfl, rfl, fun _ => rfl⟩
  | some d =>
    refine ⟨rfl, rfl, ?_⟩
    intro h
    have hd : d.resourceDepletion = none := h
    simp [applyOverlayTracked, hd]

/-- Witness for the amended claim C10 at the concrete cell `baseC8` and the
depletion-free delta `roadDelta`. -/
theorem applyOverlay_base_frame_amended_witness :
    (applyOverlayTracked baseC8 (some roadDelta)).2 = baseC8 :=
  (applyOverlay_base_frame_amended baseC8 (some roadDelta)).2.2 rfl

/-- Claim C1: `sampleFields` never terminates.  At every fuel, every
coordinate (the origin included) and every choice of the numeric primitives,
the fueled embedding produces no value: the source's `sampleFields`
unconditionally calls `getCoastDistance(x, y)`, whose search loop calls
`sampleFields(x + dx, y + dy)` for 121 offsets — `(0, 0)` among them — with
no base case or memoization, so no call ever returns the `[0, 1]`-clamped
record the claim describes. -/
theorem sampleFields_never_returns (prims : JsPrims) (fuel : ℕ) (x y : ℚ) :
    sampleFieldsF prims fuel x y = none :=
  sampleFieldsF_eq_none prims fuel x y

/-- A concrete LOD0 cell for the claim C6 witness. -/
def tileC6 : Tile :=
  { x := 0, y := 0, elevation := 1 / 3, temperature := 0, humidity := 1,
    biome := .forest, river := true }

/-- A concrete single-cell LOD0 chunk for the claim C6 witness. -/
def chunkC6 : ChunkData :=
  { cx := 0, cy := 0, lod := 0, cells := some [tileC6], blocks := none,
    heatmap := none, generatedAt := 0 }

/-- Witness for claim C6 at the concrete chunk `chunkC6`. -/
theorem serializeChunk_roundtrip_witness :
    ∃ c' : ChunkData, deserializeChunk (serializeChunk chunkC6) = some c' ∧
      ∃ cs' : List Tile, c'.cells = some cs' ∧ cs'.length = [tileC6].length ∧
        ∀ (i : ℕ) (h1 : i < [tileC6].length) (h2 : i < cs'.length),
          (cs'.get ⟨i, h2⟩).biome = ([tileC6].get ⟨i, h1⟩).biome ∧
          |(cs'.get ⟨i, h2⟩).elevation - ([tileC6].get ⟨i, h1⟩).elevation| ≤ 1 / 255 ∧
          |(cs'.get ⟨i, h2⟩).temperature - ([tileC6].get ⟨i, h1⟩).temperature| ≤ 1 / 255 ∧
          |(cs'.get ⟨i, h2⟩).humidity - ([tileC6].get ⟨i, h1⟩).humidity| ≤ 1 / 255 :=
  serializeChunk_roundtrip chunkC6 [tileC6] rfl rfl
    (by
      intro t ht
      rw [List.mem_singleton] at ht
      subst ht
      norm_num [tileC6])
